import Mathlib

/-!
Verification development for the multiple-knapsack program in
`src/interface.py`.

The program's core is `knapsack_solver(items, num_bins, max_weight, max_price)`
(interface.py lines 45-89): it builds a Gurobi integer model with binary
variables `x[i,k]` (item `i` in bin `k`), objective
`maximize Σ rating[i]·x[i,k]`, per-item constraints `Σ_k x[i,k] ≤ 1`, and
per-bin weight and price constraints, then, when the model status is
OPTIMAL, extracts the non-empty bins into a list of dictionaries; otherwise
it returns the empty list.

Embedding choices:
* numbers are `ℚ` (the Python code works with floats read from a CSV; no
  claim here hinges on binary floating-point rounding);
* a raw assignment is a `List (Option Nat)` giving, per catalog index, the
  bin of that item or `none` — exactly the binary matrices with row sums ≤ 1
  that the model's per-item constraints allow;
* the external Gurobi call is modeled as exact optimization: enumerate all
  `(num_bins+1)^N` assignments, keep the feasible ones, and return the first
  one attaining the maximal objective (Gurobi is deterministic for a fixed
  input and settings; which optimum it returns is otherwise unspecified, and
  the spec designates lowest-lexicographic branch order as canonical).
  When no assignment is feasible (negative capacities make even the all-zero
  assignment infeasible) the model status is not OPTIMAL and the extraction
  loop is skipped, giving the empty list.
The result-extraction loop (lines 72-89), `evaluate_solution`
(lines 92-116) and the display branch of `main` (lines 144-175) are
translated directly.
-/

/-- One catalog row: columns `item`, `weight`, `price`, `rating` of the
filtered dataframe passed to `knapsack_solver`. -/
structure Item where
  name : String
  weight : ℚ
  price : ℚ
  rating : ℚ
deriving DecidableEq, Repr, Inhabited

/-- One entry of a bin's `"items"` list (interface.py lines 79-84): the
weight and price are the values re-parsed from the 2-decimal formatted
strings, the rating is taken raw. -/
structure ItemEntry where
  item : String
  weight : ℚ
  price : ℚ
  rating : ℚ
deriving DecidableEq, Repr

/-- One entry of the list returned by `knapsack_solver`
(interface.py line 77): dictionary with keys `bin`, `items`,
`total_weight`, `total_price`, `total_rating`. -/
structure BinResult where
  bin : Nat
  items : List ItemEntry
  total_weight : ℚ
  total_price : ℚ
  total_rating : ℚ
deriving DecidableEq, Repr

/-- The choices Gurobi has for one item: unassigned, or one of the
`num_bins` bins. -/
def allChoices (num_bins : Nat) : List (Option Nat) :=
  none :: (List.range num_bins).map some

/-- All `(num_bins+1)^num_items` assignments of items to
bins-or-unassigned: the solution space of the binary model of
interface.py lines 51-58 (the per-item constraint `Σ_k x[i,k] ≤ 1` makes a
row of `x` exactly an `Option Nat`). -/
def allAssignments : Nat → Nat → List (List (Option Nat))
  | 0, _ => [[]]
  | n + 1, num_bins =>
      (allChoices num_bins).flatMap
        (fun c => (allAssignments n num_bins).map (fun a => c :: a))

/-- Indices of the items placed in bin `k`
(interface.py line 75: `[i for i in range(num_items) if x[i, k].X > 0.5]`). -/
def bin_items (items : List Item) (a : List (Option Nat)) (k : Nat) :
    List Nat :=
  (List.range items.length).filter (fun i => a.getD i none == some k)

/-- Total weight accumulated for bin `k` (interface.py line 85). -/
def bin_weight (items : List Item) (a : List (Option Nat)) (k : Nat) : ℚ :=
  ((bin_items items a k).map (fun i => (items.getD i default).weight)).sum

/-- Total price accumulated for bin `k` (interface.py line 86). -/
def bin_price (items : List Item) (a : List (Option Nat)) (k : Nat) : ℚ :=
  ((bin_items items a k).map (fun i => (items.getD i default).price)).sum

/-- Total rating accumulated for bin `k` (interface.py line 87). -/
def bin_rating (items : List Item) (a : List (Option Nat)) (k : Nat) : ℚ :=
  ((bin_items items a k).map (fun i => (items.getD i default).rating)).sum

/-- The model's constraints (interface.py lines 57-66): for every bin
`k < num_bins`, the weight placed in `k` is at most `max_weight` and the
price placed in `k` is at most `max_price`.  The per-item constraint is
structural in the `Option Nat` representation. -/
def feasibleB (items : List Item) (num_bins : Nat)
    (max_weight max_price : ℚ) (a : List (Option Nat)) : Bool :=
  (List.range num_bins).all
    (fun k =>
      decide (bin_weight items a k ≤ max_weight) &&
      decide (bin_price items a k ≤ max_price))

/-- The model's objective (interface.py line 54):
`Σ_i Σ_k rating[i] · x[i,k]` with `x[i,k]` the indicator of
`a.getD i none = some k`. -/
def objective (items : List Item) (num_bins : Nat)
    (a : List (Option Nat)) : ℚ :=
  ((List.range items.length).map (fun i =>
    ((List.range num_bins).map (fun k =>
      if a.getD i none = some k then (items.getD i default).rating
      else 0)).sum)).sum

/-- The feasible region of the model, in enumeration order. -/
def feasibleAssignments (items : List Item) (num_bins : Nat)
    (max_weight max_price : ℚ) : List (List (Option Nat)) :=
  (allAssignments items.length num_bins).filter
    (feasibleB items num_bins max_weight max_price)

/-- Keep the incumbent unless the candidate strictly improves the
objective: first-found tie-break, the spec's canonical deterministic
choice. -/
def pickBetter (f : List (Option Nat) → ℚ)
    (best : Option (List (Option Nat))) (x : List (Option Nat)) :
    Option (List (Option Nat)) :=
  match best with
  | none => some x
  | some b => if f b < f x then some x else some b

/-- Model of `model.optimize()` followed by the `GRB.OPTIMAL` status test
(interface.py lines 69-73): `some a` with `a` an optimal feasible
assignment when the model is feasible, `none` (status INFEASIBLE) when
not. -/
def bestAssignment (items : List Item) (num_bins : Nat)
    (max_weight max_price : ℚ) : Option (List (Option Nat)) :=
  (feasibleAssignments items num_bins max_weight max_price).foldl
    (pickBetter (objective items num_bins)) none

/-- Rounding to two decimals: the value of
`float(f"{v:.2f}".rstrip('0').rstrip('.'))` (interface.py lines 81-82) —
the string manipulation only strips trailing zeros, so the numeric value is
`v` rounded to 2 decimal places.  (Float formatting rounds ties to even;
no input in this development sits on a tie, where rounding conventions
differ.) -/
def round2 (q : ℚ) : ℚ :=
  ((⌊q * 100 + 1 / 2⌋ : ℤ) : ℚ) / 100

/-- The dictionary appended to a bin's `"items"` list for catalog row `it`
(interface.py lines 79-84): name and raw rating, weight and price rounded
to two decimals by the f-string formatting. -/
def toEntry (it : Item) : ItemEntry :=
  { item := it.name
    weight := round2 it.weight
    price := round2 it.price
    rating := it.rating }

/-- The body of the extraction loop for bin `k`
(interface.py lines 75-88): `none` when `bin_items` is empty (the bin is
skipped), otherwise the `bin_result` dictionary with 1-based bin index,
the formatted item entries, and the accumulated raw totals. -/
def extractBin (items : List Item) (a : List (Option Nat)) (k : Nat) :
    Option BinResult :=
  if (bin_items items a k).isEmpty then none
  else
    some
      { bin := k + 1
        items := (bin_items items a k).map
          (fun i => toEntry (items.getD i default))
        total_weight := bin_weight items a k
        total_price := bin_price items a k
        total_rating := bin_rating items a k }

/-- Embedding of `knapsack_solver` (interface.py lines 45-89): solve the
model; if the status is OPTIMAL, extract the non-empty bins in increasing
bin order; otherwise return the empty list. -/
def knapsack_solver (items : List Item) (num_bins : Nat)
    (max_weight max_price : ℚ) : List BinResult :=
  match bestAssignment items num_bins max_weight max_price with
  | none => []
  | some a => (List.range num_bins).filterMap (extractBin items a)

/-- Total rating of a returned result, as summed by `evaluate_solution`
(interface.py line 93). -/
def total_rating_of (result : List BinResult) : ℚ :=
  (result.map (fun b => b.total_rating)).sum

/-- The display branch of `main` (interface.py lines 148 and 174-175):
`if result:` — the empty list is falsy, so an empty result is reported
with "The problem does not have an optimal solution." -/
def main_reports_no_solution (result : List BinResult) : Bool :=
  result.isEmpty

/-- The aggregate metrics dictionary built by `evaluate_solution`
(interface.py lines 104-114), field per key. -/
structure Evaluation where
  total_rating : ℚ
  total_weight : ℚ
  total_price : ℚ
  items_used : Nat
  bins_used : Nat
  weight_utilization : ℚ
  price_utilization : ℚ
  item_utilization : ℚ
  bin_utilization : ℚ
deriving DecidableEq, Repr

/-- Embedding of `evaluate_solution` (interface.py lines 92-116).  The
Python divisions raise an uncaught `ZeroDivisionError` when their
denominator is zero (Python raises for float and integer division by zero
alike; it never yields inf or NaN here), aborting the whole function; the
divisions execute in source order, so the first zero denominator wins.
This is modeled with `Except`: each division is preceded by the test its
Python counterpart performs implicitly. -/
def evaluate_solution (result : List BinResult) (num_bins : Nat)
    (max_weight max_price : ℚ) (total_items : Nat) :
    Except String Evaluation :=
  let total_rating := (result.map (fun b => b.total_rating)).sum
  let total_weight := (result.map (fun b => b.total_weight)).sum
  let total_price := (result.map (fun b => b.total_price)).sum
  let items_used := (result.map (fun b => b.items.length)).sum
  let bins_used := result.length
  if (num_bins : ℚ) * max_weight = 0 then Except.error "ZeroDivisionError"
  else if (num_bins : ℚ) * max_price = 0 then
    Except.error "ZeroDivisionError"
  else if (total_items : ℚ) = 0 then Except.error "ZeroDivisionError"
  else if (num_bins : ℚ) = 0 then Except.error "ZeroDivisionError"
  else
    Except.ok
      { total_rating := total_rating
        total_weight := total_weight
        total_price := total_price
        items_used := items_used
        bins_used := bins_used
        weight_utilization :=
          total_weight / ((num_bins : ℚ) * max_weight) * 100
        price_utilization :=
          total_price / ((num_bins : ℚ) * max_price) * 100
        item_utilization := (items_used : ℚ) / (total_items : ℚ) * 100
        bin_utilization := (bins_used : ℚ) / (num_bins : ℚ) * 100 }

/-- State-passing view of `knapsack_solver` for the frame property: the
function body (interface.py lines 45-89) contains only reads of `items`
(`len(items)` at line 48, `items.iloc[i][...]` at lines 54, 61, 65,
80-87) and no store into it, so the catalog state after the call is the
state before it, alongside the freshly built result value. -/
def knapsack_solver_frame (items : List Item) (num_bins : Nat)
    (max_weight max_price : ℚ) : List BinResult × List Item :=
  (knapsack_solver items num_bins max_weight max_price, items)

/-! Concrete instances used in counterexamples and witnesses. -/

/-- The catalog row of the spec's Scenario A. -/
def itemA : Item := ⟨"a", 10, 5, 8⟩

/-- The bin `knapsack_solver` returns for Scenario A. -/
def binA : BinResult := ⟨1, [⟨"a", 10, 5, 8⟩], 10, 5, 8⟩

/-- The catalog row of the spec's Scenario B: too heavy and too expensive
for the capacities 10/10. -/
def itemB : Item := ⟨"b", 100, 100, 5⟩

/-- A catalog row that fits capacities 10/10 comfortably. -/
def itemX : Item := ⟨"x", 1, 1, 5⟩

/-- A catalog row whose weight 999/1000 is changed by 2-decimal
rounding. -/
def itemR : Item := ⟨"a", 999 / 1000, 1, 5⟩

/-- The bin returned for `itemR` with one bin of capacities 1/1: the
listed entry carries the rounded weight 1, the total carries the raw
weight 999/1000. -/
def binR : BinResult := ⟨1, [⟨"a", 1, 1, 5⟩], 999 / 1000, 1, 5⟩

/-- A catalog row with a negative weight; `knapsack_solver` accepts it
without complaint. -/
def itemN : Item := ⟨"n", -2, 1, 5⟩

/-- The bin returned for `itemN`. -/
def binN : BinResult := ⟨1, [⟨"n", -2, 1, 5⟩], -2, 1, 5⟩

/-! Evaluation lemmas: the solver run on the concrete instances. -/

lemma eval_scenA : knapsack_solver [itemA] 1 10 5 = [binA] := by
  norm_num [itemA, binA, knapsack_solver, bestAssignment,
    feasibleAssignments, allAssignments, allChoices, feasibleB, bin_items,
    bin_weight, bin_price, bin_rating, objective, pickBetter, extractBin,
    toEntry, round2, List.filter, List.range_succ, List.filterMap]
  simp
  norm_num

lemma eval_scenB : knapsack_solver [itemB] 1 10 10 = [] := by
  norm_num [itemB, knapsack_solver, bestAssignment, feasibleAssignments,
    allAssignments, allChoices, feasibleB, bin_items, bin_weight, bin_price,
    bin_rating, objective, pickBetter, extractBin, toEntry, round2,
    List.filter, List.range_succ, List.filterMap]

lemma eval_scenR : knapsack_solver [itemR] 1 1 1 = [binR] := by
  norm_num [itemR, binR, knapsack_solver, bestAssignment,
    feasibleAssignments, allAssignments, allChoices, feasibleB, bin_items,
    bin_weight, bin_price, bin_rating, objective, pickBetter, extractBin,
    toEntry, round2, List.filter, List.range_succ, List.filterMap]
  simp
  norm_num

lemma eval_zero_bins : knapsack_solver [itemX] 0 10 10 = [] := by
  norm_num [itemX, knapsack_solver, bestAssignment, feasibleAssignments,
    allAssignments, allChoices, feasibleB, bin_items, bin_weight, bin_price,
    bin_rating, objective, pickBetter, extractBin, toEntry, round2,
    List.filter, List.range_succ, List.filterMap]

lemma eval_neg_weight_cap : knapsack_solver [itemX] 1 (-1) 10 = [] := by
  norm_num [itemX, knapsack_solver, bestAssignment, feasibleAssignments,
    allAssignments, allChoices, feasibleB, bin_items, bin_weight, bin_price,
    bin_rating, objective, pickBetter, extractBin, toEntry, round2,
    List.filter, List.range_succ, List.filterMap]

lemma eval_neg_price_cap : knapsack_solver [itemX] 1 10 (-1) = [] := by
  norm_num [itemX, knapsack_solver, bestAssignment, feasibleAssignments,
    allAssignments, allChoices, feasibleB, bin_items, bin_weight, bin_price,
    bin_rating, objective, pickBetter, extractBin, toEntry, round2,
    List.filter, List.range_succ, List.filterMap]

lemma eval_neg_item : knapsack_solver [itemN] 1 10 10 = [binN] := by
  norm_num [itemN, binN, knapsack_solver, bestAssignment,
    feasibleAssignments, allAssignments, allChoices, feasibleB, bin_items,
    bin_weight, bin_price, bin_rating, objective, pickBetter, extractBin,
    toEntry, round2, List.filter, List.range_succ, List.filterMap]
  simp
  norm_num

/-! Helper lemmas. -/

/-- Sum of a function mapped over `List.range`, as a `Finset.range`
sum. -/
lemma sum_map_range_eq (f : Nat → ℚ) (n : Nat) :
    ((List.range n).map f).sum = ∑ k in Finset.range n, f k := by
  induction n with
  | zero => simp
  | succ m ih =>
      rw [List.range_succ, Finset.sum_range_succ, List.map_append,
        List.sum_append]
      simp [ih]

/-- Summing over a filtered list is summing the guarded values. -/
lemma sum_map_filter_eq (l : List Nat) (p : Nat → Bool) (f : Nat → ℚ) :
    ((l.filter p).map f).sum =
      (l.map (fun i => if p i then f i else 0)).sum := by
  induction l with
  | nil => simp
  | cons x t ih =>
      cases h : p x <;>
        simp [List.filter_cons, h, ih]

/-- The `none`-or-`some` shape of `extractBin`. -/
lemma extractBin_eq_some (items : List Item) (a : List (Option Nat))
    (k : Nat) (b : BinResult) (h : extractBin items a k = some b) :
    bin_items items a k ≠ [] ∧
    b = { bin := k + 1
          items := (bin_items items a k).map
            (fun i => toEntry (items.getD i default))
          total_weight := bin_weight items a k
          total_price := bin_price items a k
          total_rating := bin_rating items a k } := by
  unfold extractBin at h
  by_cases he : (bin_items items a k).isEmpty
  · rw [if_pos he] at h
    cases h
  · rw [if_neg he] at h
    injection h with h
    refine ⟨fun hn => he ?_, h.symm⟩
    rw [hn]
    rfl

/-- The extracted bins of a result contribute exactly the per-bin rating
sums: skipped bins are exactly the empty ones, which contribute zero. -/
lemma sum_filterMap_extract (items : List Item) (a : List (Option Nat)) :
    ∀ ks : List Nat,
      ((ks.filterMap (extractBin items a)).map
          (fun b => b.total_rating)).sum =
        (ks.map (fun k => bin_rating items a k)).sum := by
  intro ks
  induction ks with
  | nil => simp
  | cons k t ih =>
      rw [List.filterMap_cons]
      by_cases he : (bin_items items a k).isEmpty
      · have h0 : bin_rating items a k = 0 := by
          unfold bin_rating
          have : bin_items items a k = [] := by
            cases hb : bin_items items a k with
            | nil => rfl
            | cons x xs => rw [hb] at he; cases he
          rw [this]
          rfl
        rw [show extractBin items a k = none from by
          unfold extractBin; rw [if_pos he]]
        simp [ih, h0]
      · rw [show extractBin items a k =
            some { bin := k + 1
                   items := (bin_items items a k).map
                     (fun i => toEntry (items.getD i default))
                   total_weight := bin_weight items a k
                   total_price := bin_price items a k
                   total_rating := bin_rating items a k } from by
          unfold extractBin; rw [if_neg he]]
        simp [ih]

/-- Number of extracted bins: one per non-empty bin. -/
lemma length_filterMap_extract (items : List Item) (a : List (Option Nat)) :
    ∀ ks : List Nat,
      (ks.filterMap (extractBin items a)).length =
        (ks.filter (fun k => !(bin_items items a k).isEmpty)).length := by
  intro ks
  induction ks with
  | nil => rfl
  | cons k t ih =>
      rw [List.filterMap_cons, List.filter_cons]
      by_cases he : (bin_items items a k).isEmpty
      · rw [show extractBin items a k = none from by
          unfold extractBin; rw [if_pos he]]
        simp [he, ih]
      · have : ∃ b, extractBin items a k = some b := by
          unfold extractBin; rw [if_neg he]; exact ⟨_, rfl⟩
        obtain ⟨b, hb⟩ := this
        rw [hb]
        simp [he, ih]

/-- Folding `pickBetter` from a `some` accumulator yields an element that
is the accumulator or comes from the list and beats everything. -/
lemma foldl_pickBetter_go (f : List (Option Nat) → ℚ) :
    ∀ (l : List (List (Option Nat))) (b : List (Option Nat)),
      ∃ c, l.foldl (pickBetter f) (some b) = some c ∧ (c = b ∨ c ∈ l) ∧
        f b ≤ f c ∧ ∀ x ∈ l, f x ≤ f c := by
  intro l
  induction l with
  | nil =>
      intro b
      exact ⟨b, rfl, Or.inl rfl, le_refl _, by simp⟩
  | cons x t ih =>
      intro b
      by_cases h : f b < f x
      · obtain ⟨c, hc, hmem, hle, hall⟩ := ih x
        refine ⟨c, ?_, ?_, ?_, ?_⟩
        · rw [List.foldl_cons,
            show pickBetter f (some b) x =
              if f b < f x then some x else some b from rfl,
            if_pos h]
          exact hc
        · rcases hmem with e | m
          · exact Or.inr (e ▸ List.mem_cons_self x t)
          · exact Or.inr (List.mem_cons_of_mem x m)
        · exact le_trans (le_of_lt h) hle
        · intro y hy
          rcases List.mem_cons.mp hy with e | m
          · exact e ▸ hle
          · exact hall y m
      · obtain ⟨c, hc, hmem, hle, hall⟩ := ih b
        refine ⟨c, ?_, ?_, ?_, ?_⟩
        · rw [List.foldl_cons,
            show pickBetter f (some b) x =
              if f b < f x then some x else some b from rfl,
            if_neg h]
          exact hc
        · rcases hmem with e | m
          · exact Or.inl e
          · exact Or.inr (List.mem_cons_of_mem x m)
        · exact hle
        · intro y hy
          rcases List.mem_cons.mp hy with e | m
          · exact e ▸ le_trans (le_of_not_lt h) hle
          · exact hall y m

/-- An optimizer output is a feasible assignment that maximizes the
objective over the feasible region. -/
lemma bestAssignment_opt (items : List Item) (nb : Nat) (mw mp : ℚ)
    (a : List (Option Nat)) (h : bestAssignment items nb mw mp = some a) :
    a ∈ feasibleAssignments items nb mw mp ∧
      ∀ x ∈ feasibleAssignments items nb mw mp,
        objective items nb x ≤ objective items nb a := by
  unfold bestAssignment at h
  cases hl : feasibleAssignments items nb mw mp with
  | nil =>
      rw [hl] at h
      cases h
  | cons x t =>
      rw [hl, List.foldl_cons] at h
      rw [show pickBetter (objective items nb) none x = some x from rfl]
        at h
      obtain ⟨c, hc, hmem, hle, hall⟩ :=
        foldl_pickBetter_go (objective items nb) t x
      rw [hc] at h
      injection h with h
      subst h
      constructor
      · rcases hmem with e | m
        · exact e ▸ List.mem_cons_self x t
        · exact List.mem_cons_of_mem x m
      · intro y hy
        rcases List.mem_cons.mp hy with e | m
        · exact e ▸ hle
        · exact hall y m

/-- The all-unassigned row of the decision matrix. -/
lemma replicate_getD (n i : Nat) :
    (List.replicate n (none : Option Nat)).getD i none = none := by
  induction n generalizing i with
  | zero => cases i <;> rfl
  | succ m ih =>
      cases i with
      | zero => rfl
      | succ j =>
          rw [List.replicate_succ, List.getD_cons_succ]
          exact ih j

/-- The all-unassigned assignment is enumerated. -/
lemma allNone_mem (n nb : Nat) :
    List.replicate n (none : Option Nat) ∈ allAssignments n nb := by
  induction n with
  | zero => simp [allAssignments]
  | succ m ih =>
      rw [List.replicate_succ]
      unfold allAssignments
      apply List.mem_flatMap.mpr
      refine ⟨none, ?_, List.mem_map.mpr ⟨_, ih, rfl⟩⟩
      unfold allChoices
      exact List.mem_cons_self _ _

/-- With non-negative capacities the all-unassigned assignment is
feasible: every bin is empty. -/
lemma allNone_feasible (items : List Item) (nb : Nat) (mw mp : ℚ)
    (hw : 0 ≤ mw) (hp : 0 ≤ mp) :
    feasibleB items nb mw mp (List.replicate items.length none) = true := by
  unfold feasibleB
  rw [List.all_eq_true]
  intro k _
  have hempty :
      bin_items items (List.replicate items.length none) k = [] := by
    unfold bin_items
    apply List.filter_eq_nil_iff.mpr
    intro i _
    simp [replicate_getD]
  simp [bin_weight, bin_price, hempty, hw, hp]

/-- With non-negative capacities the model is feasible, so the status is
OPTIMAL and the optimizer returns an assignment. -/
lemma bestAssignment_some (items : List Item) (nb : Nat) (mw mp : ℚ)
    (hw : 0 ≤ mw) (hp : 0 ≤ mp) :
    ∃ a, bestAssignment items nb mw mp = some a := by
  have hmem : List.replicate items.length (none : Option Nat) ∈
      feasibleAssignments items nb mw mp :=
    List.mem_filter.mpr
      ⟨allNone_mem _ _, allNone_feasible items nb mw mp hw hp⟩
  unfold bestAssignment
  cases hl : feasibleAssignments items nb mw mp with
  | nil =>
      rw [hl] at hmem
      cases hmem
  | cons x t =>
      rw [List.foldl_cons]
      rw [show pickBetter (objective items nb) none x = some x from rfl]
      obtain ⟨c, hc, _, _, _⟩ := foldl_pickBetter_go (objective items nb) t x
      exact ⟨c, hc⟩

/-- The total rating reported by the solver is the model objective of the
optimizer's assignment. -/
lemma solver_rating_eq (items : List Item) (nb : Nat) (mw mp : ℚ)
    (a : List (Option Nat)) (h : bestAssignment items nb mw mp = some a) :
    total_rating_of (knapsack_solver items nb mw mp) =
      objective items nb a := by
  unfold knapsack_solver
  rw [h]
  unfold total_rating_of
  rw [sum_filterMap_extract]
  have hb : ∀ k, bin_rating items a k =
      ((List.range items.length).map
        (fun i => if a.getD i none = some k
          then (items.getD i default).rating else 0)).sum := by
    intro k
    unfold bin_rating bin_items
    rw [sum_map_filter_eq]
    refine congrArg List.sum (List.map_congr_left ?_)
    intro i _
    by_cases h' : a.getD i none = some k
    · simp [h']
    · simp [h']
  simp only [hb, sum_map_range_eq]
  unfold objective
  simp only [sum_map_range_eq]
  exact Finset.sum_comm

/-- Reading off `bins_used` from a successful evaluation: it is the length
of the result list (interface.py lines 97 and 109). -/
lemma evaluate_bins_used (result : List BinResult) (nb : Nat) (mw mp : ℚ)
    (ti : Nat) (e : Evaluation)
    (h : evaluate_solution result nb mw mp ti = Except.ok e) :
    e.bins_used = result.length := by
  simp only [evaluate_solution] at h
  by_cases h1 : (nb : ℚ) * mw = 0
  · rw [if_pos h1] at h; cases h
  · rw [if_neg h1] at h
    by_cases h2 : (nb : ℚ) * mp = 0
    · rw [if_pos h2] at h; cases h
    · rw [if_neg h2] at h
      by_cases h3 : (ti : ℚ) = 0
      · rw [if_pos h3] at h; cases h
      · rw [if_neg h3] at h
        by_cases h4 : (nb : ℚ) = 0
        · rw [if_pos h4] at h; cases h
        · rw [if_neg h4] at h
          injection h with h
          rw [← h]

/-! The claims. -/

/-- C1: for every catalog, `num_bins ≥ 1` and non-negative capacities,
the total rating of the result returned by `knapsack_solver` equals the
maximum total rating over the exhaustive enumeration of all
`(num_bins+1)^N` assignments that satisfy the per-bin weight budget and
the per-bin price budget (the at-most-one-bin-per-item constraint is
structural in the enumeration of `Option`-valued assignments): every
feasible assignment rates at most the returned total, and some feasible
assignment attains it. -/
theorem C1_total_rating_is_max (items : List Item) (num_bins : Nat)
    (max_weight max_price : ℚ) (_hnb : 1 ≤ num_bins)
    (hw : 0 ≤ max_weight) (hp : 0 ≤ max_price) :
    (∀ a ∈ allAssignments items.length num_bins,
        feasibleB items num_bins max_weight max_price a = true →
          objective items num_bins a ≤
            total_rating_of
              (knapsack_solver items num_bins max_weight max_price)) ∧
    (∃ a ∈ allAssignments items.length num_bins,
        feasibleB items num_bins max_weight max_price a = true ∧
          objective items num_bins a =
            total_rating_of
              (knapsack_solver items num_bins max_weight max_price)) := by
  obtain ⟨a, ha⟩ :=
    bestAssignment_some items num_bins max_weight max_price hw hp
  obtain ⟨hmem, hmax⟩ :=
    bestAssignment_opt items num_bins max_weight max_price a ha
  have hr := solver_rating_eq items num_bins max_weight max_price a ha
  constructor
  · intro x hx hfx
    rw [hr]
    exact hmax x (List.mem_filter.mpr ⟨hx, hfx⟩)
  · obtain ⟨hxa, hfa⟩ := List.mem_filter.mp hmem
    exact ⟨a, hxa, hfa, hr.symm⟩

/-- C1 witness: Scenario A (one item fitting exactly, one bin). -/
theorem C1_total_rating_is_max_witness :
    (∀ a ∈ allAssignments ([itemA] : List Item).length 1,
        feasibleB [itemA] 1 10 5 a = true →
          objective [itemA] 1 a ≤
            total_rating_of (knapsack_solver [itemA] 1 10 5)) ∧
    (∃ a ∈ allAssignments ([itemA] : List Item).length 1,
        feasibleB [itemA] 1 10 5 a = true ∧
          objective [itemA] 1 a =
            total_rating_of (knapsack_solver [itemA] 1 10 5)) :=
  C1_total_rating_is_max [itemA] 1 10 5 (by norm_num) (by norm_num)
    (by norm_num)

/-- C2: every bin entry the solver returns satisfies both capacity
budgets, and the whole result is the extraction of one feasible
assignment of the model, under which each catalog index lies in at most
one bin's index list. -/
theorem C2_result_feasible (items : List Item) (num_bins : Nat)
    (max_weight max_price : ℚ) (b : BinResult)
    (hb : b ∈ knapsack_solver items num_bins max_weight max_price) :
    b.total_weight ≤ max_weight ∧ b.total_price ≤ max_price ∧
    ∃ a ∈ allAssignments items.length num_bins,
      feasibleB items num_bins max_weight max_price a = true ∧
      knapsack_solver items num_bins max_weight max_price =
        (List.range num_bins).filterMap (extractBin items a) ∧
      ∀ i k₁ k₂, i ∈ bin_items items a k₁ → i ∈ bin_items items a k₂ →
        k₁ = k₂ := by
  unfold knapsack_solver at hb ⊢
  cases ha : bestAssignment items num_bins max_weight max_price with
  | none => rw [ha] at hb; cases hb
  | some a =>
      rw [ha] at hb
      obtain ⟨hmem, _⟩ :=
        bestAssignment_opt items num_bins max_weight max_price a ha
      obtain ⟨haall, hafeas⟩ := List.mem_filter.mp hmem
      obtain ⟨k, hk, hext⟩ := List.mem_filterMap.mp hb
      obtain ⟨hne, hbeq⟩ := extractBin_eq_some items a k b hext
      have hf2 := hafeas
      unfold feasibleB at hf2
      have hck := List.all_eq_true.mp hf2 k hk
      rw [Bool.and_eq_true, decide_eq_true_eq, decide_eq_true_eq] at hck
      refine ⟨?_, ?_, a, haall, hafeas, rfl, ?_⟩
      · rw [hbeq]
        exact hck.1
      · rw [hbeq]
        exact hck.2
      · intro i k₁ k₂ h1 h2
        unfold bin_items at h1 h2
        have e1 := (List.mem_filter.mp h1).2
        have e2 := (List.mem_filter.mp h2).2
        rw [beq_iff_eq] at e1 e2
        rw [e1] at e2
        exact Option.some.inj e2

/-- C2 witness: Scenario A, with the returned bin. -/
theorem C2_result_feasible_witness :
    binA.total_weight ≤ 10 ∧ binA.total_price ≤ 5 ∧
    ∃ a ∈ allAssignments ([itemA] : List Item).length 1,
      feasibleB [itemA] 1 10 5 a = true ∧
      knapsack_solver [itemA] 1 10 5 =
        (List.range 1).filterMap (extractBin [itemA] a) ∧
      ∀ i k₁ k₂, i ∈ bin_items [itemA] a k₁ → i ∈ bin_items [itemA] a k₂ →
        k₁ = k₂ :=
  C2_result_feasible [itemA] 1 10 5 binA
    (by rw [eval_scenA]; exact List.mem_singleton.mpr rfl)

/-- C3 counterexample: `knapsack_solver` called with `num_bins = 0`
returns the empty list as an ordinary value — the function has no
parameter validation and no InvalidParameter error exists anywhere in the
code, so nothing is raised before (or instead of) the search. -/
theorem C3_counterexample_num_bins_zero_returns :
    knapsack_solver [itemX] 0 10 10 = [] :=
  eval_zero_bins

/-- C3 amended: `knapsack_solver` performs no parameter validation.
`num_bins = 0` yields the empty result list (the model with no bins is
trivially optimal and the extraction loop is empty); a negative weight or
price capacity makes the model infeasible, which also yields the empty
result list; an item with a negative field is accepted and solved
normally.  No input makes the function fail. -/
theorem C3_amended_no_validation :
    knapsack_solver [itemX] 0 10 10 = [] ∧
    knapsack_solver [itemX] 1 (-1) 10 = [] ∧
    knapsack_solver [itemX] 1 10 (-1) = [] ∧
    knapsack_solver [itemN] 1 10 10 = [binN] :=
  ⟨eval_zero_bins, eval_neg_weight_cap, eval_neg_price_cap, eval_neg_item⟩

/-- C4 counterexample: a zero utilization denominator makes the whole of
`evaluate_solution` the division-by-zero error — the evaluation is
aborted entirely and the per-bin/aggregate totals are not surfaced
(the error value carries no totals), refuting the claim that the totals
are reported independently of the failing metric.  Shown both for
`num_bins × max_weight = 0` and for `total_items = 0`. -/
theorem C4_counterexample_report_aborted :
    evaluate_solution [binA] 1 0 5 1 = Except.error "ZeroDivisionError" ∧
    evaluate_solution [binA] 1 10 5 0 =
      Except.error "ZeroDivisionError" := by
  constructor
  · norm_num [evaluate_solution]
  · norm_num [evaluate_solution]

/-- C4 amended: whenever a utilization denominator is zero
(`num_bins × max_weight`, `num_bins × max_price`, or `total_items`; a
zero `num_bins` alone already zeroes the first product), the evaluation
fails with the division-by-zero error — no infinite or NaN metric is ever
produced — but the failure aborts the entire report: the function returns
only the error and none of the totals. -/
theorem C4_amended_divzero_aborts (result : List BinResult)
    (num_bins : Nat) (max_weight max_price : ℚ) (total_items : Nat)
    (h : (num_bins : ℚ) * max_weight = 0 ∨
      (num_bins : ℚ) * max_price = 0 ∨ total_items = 0) :
    evaluate_solution result num_bins max_weight max_price total_items =
      Except.error "ZeroDivisionError" := by
  simp only [evaluate_solution]
  rcases h with h | h | h
  · rw [if_pos h]
  · by_cases h1 : (num_bins : ℚ) * max_weight = 0
    · rw [if_pos h1]
    · rw [if_neg h1, if_pos h]
  · by_cases h1 : (num_bins : ℚ) * max_weight = 0
    · rw [if_pos h1]
    · by_cases h2 : (num_bins : ℚ) * max_price = 0
      · rw [if_neg h1, if_pos h2]
      · rw [if_neg h1, if_neg h2, if_pos (by simp [h])]

/-- C4 amended witness: zero bins zero the first denominator. -/
theorem C4_amended_divzero_aborts_witness :
    evaluate_solution [] 0 1 1 1 = Except.error "ZeroDivisionError" :=
  C4_amended_divzero_aborts [] 0 1 1 1 (Or.inl (by norm_num))

/-- C5 counterexample: on Scenario B (one item exceeding both budgets,
one bin) the solver does return the empty-result value, but the caller in
`main` takes the `if result:` else-branch for it — the empty optimal
outcome is reported with the same "The problem does not have an optimal
solution." message as a failed solve, refuting the claim that it is not
reported as a failure or "no solution". -/
theorem C5_counterexample_reported_as_no_solution :
    knapsack_solver [itemB] 1 10 10 = [] ∧
    main_reports_no_solution (knapsack_solver [itemB] 1 10 10) = true := by
  refine ⟨eval_scenB, ?_⟩
  rw [eval_scenB]
  rfl

/-- C5 amended: when no item fits in any bin, solving returns the empty
list — zero bins used, total rating 0, and no feasible assignment rates
better, so it is the optimal outcome and not an error value; however the
result is indistinguishable from a failed solve, and `main` reports it
with the "no optimal solution" message. -/
theorem C5_amended_zero_rating_solution :
    knapsack_solver [itemB] 1 10 10 = [] ∧
    total_rating_of (knapsack_solver [itemB] 1 10 10) = 0 ∧
    (∀ a ∈ allAssignments ([itemB] : List Item).length 1,
        feasibleB [itemB] 1 10 10 a = true →
          objective [itemB] 1 a ≤
            total_rating_of (knapsack_solver [itemB] 1 10 10)) ∧
    main_reports_no_solution (knapsack_solver [itemB] 1 10 10) = true := by
  have h0 : total_rating_of (knapsack_solver [itemB] 1 10 10) = 0 := by
    rw [eval_scenB]
    rfl
  refine ⟨eval_scenB, h0, ?_, by rw [eval_scenB]; rfl⟩
  intro a ha hf
  obtain ⟨abest, hab⟩ :=
    bestAssignment_some [itemB] 1 10 10 (by norm_num) (by norm_num)
  obtain ⟨_, hmax⟩ := bestAssignment_opt [itemB] 1 10 10 abest hab
  rw [solver_rating_eq [itemB] 1 10 10 abest hab]
  exact hmax a (List.mem_filter.mpr ⟨ha, hf⟩)

/-- C6: with `num_bins ≥ 1`, nonzero capacities and a nonzero catalog
size, `evaluate_solution` succeeds and returns exactly the four
utilization formulas over the totals, each total being the sum of the
corresponding per-bin totals of the result. -/
theorem C6_utilization_formulas (result : List BinResult)
    (num_bins : Nat) (max_weight max_price : ℚ) (total_items : Nat)
    (hnb : 1 ≤ num_bins) (hw : max_weight ≠ 0) (hp : max_price ≠ 0)
    (ht : total_items ≠ 0) :
    evaluate_solution result num_bins max_weight max_price total_items =
      Except.ok
        { total_rating := (result.map (fun b => b.total_rating)).sum
          total_weight := (result.map (fun b => b.total_weight)).sum
          total_price := (result.map (fun b => b.total_price)).sum
          items_used := (result.map (fun b => b.items.length)).sum
          bins_used := result.length
          weight_utilization :=
            (result.map (fun b => b.total_weight)).sum /
              ((num_bins : ℚ) * max_weight) * 100
          price_utilization :=
            (result.map (fun b => b.total_price)).sum /
              ((num_bins : ℚ) * max_price) * 100
          item_utilization :=
            (((result.map (fun b => b.items.length)).sum : Nat) : ℚ) /
              (total_items : ℚ) * 100
          bin_utilization :=
            ((result.length : Nat) : ℚ) / (num_bins : ℚ) * 100 } := by
  have hnb0 : num_bins ≠ 0 := Nat.one_le_iff_ne_zero.mp hnb
  have h1 : (num_bins : ℚ) * max_weight ≠ 0 :=
    mul_ne_zero (Nat.cast_ne_zero.mpr hnb0) hw
  have h2 : (num_bins : ℚ) * max_price ≠ 0 :=
    mul_ne_zero (Nat.cast_ne_zero.mpr hnb0) hp
  have h3 : (total_items : ℚ) ≠ 0 := Nat.cast_ne_zero.mpr ht
  have h4 : (num_bins : ℚ) ≠ 0 := Nat.cast_ne_zero.mpr hnb0
  simp only [evaluate_solution, if_neg h1, if_neg h2, if_neg h3, if_neg h4]

/-- C6 witness: Scenario A evaluated. -/
theorem C6_utilization_formulas_witness :
    evaluate_solution [binA] 1 10 5 1 =
      Except.ok
        { total_rating := ([binA].map (fun b => b.total_rating)).sum
          total_weight := ([binA].map (fun b => b.total_weight)).sum
          total_price := ([binA].map (fun b => b.total_price)).sum
          items_used := ([binA].map (fun b => b.items.length)).sum
          bins_used := [binA].length
          weight_utilization :=
            ([binA].map (fun b => b.total_weight)).sum /
              ((1 : ℚ) * 10) * 100
          price_utilization :=
            ([binA].map (fun b => b.total_price)).sum /
              ((1 : ℚ) * 5) * 100
          item_utilization :=
            ((([binA].map (fun b => b.items.length)).sum : Nat) : ℚ) /
              ((1 : Nat) : ℚ) * 100
          bin_utilization :=
            (([binA].length : Nat) : ℚ) / ((1 : Nat) : ℚ) * 100 } := by
  have h := C6_utilization_formulas [binA] 1 10 5 1 (by norm_num)
    (by norm_num) (by norm_num) (by norm_num)
  rw [h]
  norm_num

/-- C7 counterexample: for an item of weight 999/1000 placed in a bin,
the listed per-item weight is the rounded value 1, while the bin's
`total_weight` is the raw 999/1000 — so the per-bin total does not equal
the sum of the weights of the items listed in the bin, refuting that part
of the claim. -/
theorem C7_counterexample_listed_weight_rounded :
    knapsack_solver [itemR] 1 1 1 = [binR] ∧
    (binR.items.map (fun e => e.weight)).sum = 1 ∧
    binR.total_weight = 999 / 1000 ∧
    (binR.items.map (fun e => e.weight)).sum ≠ binR.total_weight := by
  refine ⟨eval_scenR, by simp [binR], rfl, ?_⟩
  simp only [binR]
  norm_num

/-- C7 amended: every returned bin entry reports a 1-based bin index
(`k + 1` for internal index `k < num_bins`); its totals are the sums of
the raw catalog weight, price and rating of the assigned items, while the
listed per-item weight and price are rounded to two decimals (so the
totals need not match sums over the listed values; the rating is listed
unrounded, so the rating total does equal the sum of the listed ratings);
and the `bins_used` metric of `evaluate_solution` is the length of the
result, which is the count of non-empty bins (empty bins are skipped by
the extraction). -/
theorem C7_amended_per_bin_report (items : List Item) (num_bins : Nat)
    (max_weight max_price : ℚ) (total_items : Nat) (b : BinResult)
    (hb : b ∈ knapsack_solver items num_bins max_weight max_price) :
    ∃ k, k < num_bins ∧ b.bin = k + 1 ∧
      ∃ a, bestAssignment items num_bins max_weight max_price = some a ∧
        b.items = (bin_items items a k).map
          (fun i => toEntry (items.getD i default)) ∧
        b.total_weight = bin_weight items a k ∧
        b.total_price = bin_price items a k ∧
        b.total_rating = bin_rating items a k ∧
        b.total_rating = (b.items.map (fun e => e.rating)).sum ∧
        (∀ e, evaluate_solution
            (knapsack_solver items num_bins max_weight max_price)
            num_bins max_weight max_price total_items = Except.ok e →
          e.bins_used =
            (knapsack_solver items num_bins max_weight max_price).length) ∧
        (knapsack_solver items num_bins max_weight max_price).length =
          ((List.range num_bins).filter
            (fun j => !(bin_items items a j).isEmpty)).length := by
  have hsolver := hb
  unfold knapsack_solver at hsolver
  cases ha : bestAssignment items num_bins max_weight max_price with
  | none => rw [ha] at hsolver; cases hsolver
  | some a =>
      rw [ha] at hsolver
      obtain ⟨k, hk, hext⟩ := List.mem_filterMap.mp hsolver
      obtain ⟨hne, hbeq⟩ := extractBin_eq_some items a k b hext
      have hform : knapsack_solver items num_bins max_weight max_price =
          (List.range num_bins).filterMap (extractBin items a) := by
        unfold knapsack_solver
        rw [ha]
      refine ⟨k, List.mem_range.mp hk, by rw [hbeq], a, rfl, by rw [hbeq],
        by rw [hbeq], by rw [hbeq], by rw [hbeq], ?_, ?_, ?_⟩
      · rw [hbeq]
        show bin_rating items a k = _
        unfold bin_rating
        rw [List.map_map]
        refine congrArg List.sum (List.map_congr_left ?_)
        intro i _
        simp [toEntry]
      · intro e he
        exact evaluate_bins_used _ _ _ _ _ e he
      · rw [hform, length_filterMap_extract]

/-- C7 amended witness: Scenario A, with the returned bin and a catalog
size of 1. -/
theorem C7_amended_per_bin_report_witness :
    ∃ k, k < 1 ∧ binA.bin = k + 1 ∧
      ∃ a, bestAssignment [itemA] 1 10 5 = some a ∧
        binA.items = (bin_items [itemA] a k).map
          (fun i => toEntry (([itemA] : List Item).getD i default)) ∧
        binA.total_weight = bin_weight [itemA] a k ∧
        binA.total_price = bin_price [itemA] a k ∧
        binA.total_rating = bin_rating [itemA] a k ∧
        binA.total_rating = (binA.items.map (fun e => e.rating)).sum ∧
        (∀ e, evaluate_solution (knapsack_solver [itemA] 1 10 5)
            1 10 5 1 = Except.ok e →
          e.bins_used = (knapsack_solver [itemA] 1 10 5).length) ∧
        (knapsack_solver [itemA] 1 10 5).length =
          ((List.range 1).filter
            (fun j => !(bin_items [itemA] a j).isEmpty)).length :=
  C7_amended_per_bin_report [itemA] 1 10 5 1 binA
    (by rw [eval_scenA]; exact List.mem_singleton.mpr rfl)

/-- C8: the solver never mutates the catalog.  The Python body only reads
`items` (`len(items)` at line 48, `items.iloc[i][...]` at lines 54, 61,
65, 80-87) and performs no store into it, so in the state-passing view the
catalog coming out of the call is the catalog that went in — same
identifiers, weights, prices, ratings, in the same order — and the result
is a freshly built value alongside it. -/
theorem C8_catalog_unchanged (items : List Item) (num_bins : Nat)
    (max_weight max_price : ℚ) :
    (knapsack_solver_frame items num_bins max_weight max_price).2 =
      items ∧
    (knapsack_solver_frame items num_bins max_weight max_price).1 =
      knapsack_solver items num_bins max_weight max_price :=
  ⟨rfl, rfl⟩

/-- C9: solving is deterministic — two calls on equal inputs (same
catalog contents and order, same bin count and capacities) return equal
results, the same items in the same bins.  The Gurobi call is modeled as
a deterministic optimum selection (first optimum in a fixed enumeration
order), matching Gurobi's deterministic behavior for a fixed input and
settings. -/
theorem C9_deterministic (items₁ items₂ : List Item) (nb₁ nb₂ : Nat)
    (mw₁ mw₂ mp₁ mp₂ : ℚ) (hi : items₁ = items₂) (hn : nb₁ = nb₂)
    (hw : mw₁ = mw₂) (hp : mp₁ = mp₂) :
    knapsack_solver items₁ nb₁ mw₁ mp₁ =
      knapsack_solver items₂ nb₂ mw₂ mp₂ := by
  rw [hi, hn, hw, hp]

/-- C9 witness: two identical Scenario A calls. -/
theorem C9_deterministic_witness :
    knapsack_solver [itemA] 1 10 5 = knapsack_solver [itemA] 1 10 5 :=
  C9_deterministic [itemA] [itemA] 1 1 10 10 5 5 rfl rfl rfl rfl

/-- C10: every bin entry in a solver result has a non-empty items list
(bins with no items are skipped by the `if bin_items:` test rather than
reported empty), and consequently an all-empty optimal assignment
(Scenario B) and a failed solve (infeasible model from a negative
capacity) both reach the caller as the same empty list. -/
theorem C10_empty_bins_omitted (items : List Item) (num_bins : Nat)
    (max_weight max_price : ℚ) (b : BinResult)
    (hb : b ∈ knapsack_solver items num_bins max_weight max_price) :
    b.items ≠ [] ∧
    knapsack_solver [itemB] 1 10 10 = [] ∧
    knapsack_solver [itemX] 1 (-1) 10 = [] := by
  refine ⟨?_, eval_scenB, eval_neg_weight_cap⟩
  unfold knapsack_solver at hb
  cases ha : bestAssignment items num_bins max_weight max_price with
  | none => rw [ha] at hb; cases hb
  | some a =>
      rw [ha] at hb
      obtain ⟨k, _, hext⟩ := List.mem_filterMap.mp hb
      obtain ⟨hne, hbeq⟩ := extractBin_eq_some items a k b hext
      rw [hbeq]
      cases hbi : bin_items items a k with
      | nil => exact absurd hbi hne
      | cons x xs => simp [hbi]

/-- C10 witness: Scenario A, whose single returned bin is non-empty. -/
theorem C10_empty_bins_omitted_witness :
    binA.items ≠ [] ∧
    knapsack_solver [itemB] 1 10 10 = [] ∧
    knapsack_solver [itemX] 1 (-1) 10 = [] :=
  C10_empty_bins_omitted [itemA] 1 10 5 binA
    (by rw [eval_scenA]; exact List.mem_singleton.mpr rfl)
